import Mathlib

/-!
Verification development for the operation type system and canonical binary
encoder of `steembase/operations.py`, together with the registry
`operations` and the lookup `getOperationNameForId`.

The primitive scalar codec (`graphenebase.types`: `String`, `Int16`, `Id`)
and the base class `GrapheneObject` live in an external dependency, not in
this repository; they are modelled from the spec (wire format of section 6:
strings are varint-length-prefixed UTF-8, fixed-width integers are
little-endian two's complement, the operation id is a compact varint).
Everything else is a direct shallow embedding of `operations.py`.
-/

namespace SteemOps

/-- Structural worker for `varint`: the fuel only bounds the recursion
depth and is always sufficient when it exceeds the argument, since the
argument strictly shrinks under division by 128. -/
def varintAux : Nat → Nat → List Nat
  | 0, n => [n]
  | fuel + 1, n =>
      if n < 128 then [n]
      else (n % 128 + 128) :: varintAux fuel (n / 128)

/-- Modelled from the spec: the compact-integer ("varint") encoding used by
the primitive codec for the operation id and for string length prefixes
(base-128, little-endian groups, high bit set on all but the last byte). -/
def varint (n : Nat) : List Nat :=
  varintAux (n + 1) n

/-- The fuel of `varintAux` is irrelevant once it exceeds the argument. -/
theorem varintAux_congr :
    ∀ (m f1 f2 : Nat), m < f1 → m < f2 → varintAux f1 m = varintAux f2 m := by
  intro m
  induction m using Nat.strong_induction_on with
  | _ m ih =>
      intro f1 f2 h1 h2
      match f1, f2 with
      | g1 + 1, g2 + 1 =>
          by_cases h128 : m < 128
          · simp [varintAux, h128]
          · have hd : m / 128 < m := Nat.div_lt_self (by omega) (by omega)
            have htail : varintAux g1 (m / 128) = varintAux g2 (m / 128) :=
              ih (m / 128) hd g1 g2 (by omega) (by omega)
            simp [varintAux, h128, htail]

/-- `varint` satisfies the intended recurrence: one byte below 128,
otherwise a continuation byte followed by the encoding of the quotient. -/
theorem varint_eq (n : Nat) :
    varint n = if n < 128 then [n] else (n % 128 + 128) :: varint (n / 128) := by
  by_cases h128 : n < 128
  · simp [varint, varintAux, h128]
  · have hd : n / 128 < n := Nat.div_lt_self (by omega) (by omega)
    have htail : varintAux n (n / 128) = varintAux (n / 128 + 1) (n / 128) :=
      varintAux_congr (n / 128) n (n / 128 + 1) hd (by omega)
    simp [varint, varintAux, h128, htail]

/-- Modelled from the spec: UTF-8 encoding of one Unicode code point. -/
def utf8EncodeCodepoint (n : Nat) : List Nat :=
  if n < 128 then [n]
  else if n < 2048 then [192 + n / 64, 128 + n % 64]
  else if n < 65536 then [224 + n / 4096, 128 + (n / 64) % 64, 128 + n % 64]
  else [240 + n / 262144, 128 + (n / 4096) % 64, 128 + (n / 64) % 64, 128 + n % 64]

/-- Modelled from the spec: the UTF-8 bytes of a string. -/
def utf8Bytes (s : String) : List Nat :=
  s.toList.flatMap (fun c => utf8EncodeCodepoint c.toNat)

/-- Modelled from the spec: the primitive codec's encoding of a string
field: varint byte length followed by the UTF-8 bytes
(`graphenebase.types.String`). -/
def strEnc (s : String) : List Nat :=
  varint (utf8Bytes s).length ++ utf8Bytes s

/-- Modelled from the spec: the primitive codec's encoding of a signed
16-bit integer: two bytes, little endian, two's complement
(`graphenebase.types.Int16`). Values outside the signed 16-bit range are
rejected at construction time by `convertVal` (the spec's
`InvalidFieldValueError`, section 7: integer overflow fails at
construction), so encoding only ever sees in-range values, where the
reduction modulo 2^16 below coincides with `struct.pack("<h", ...)`. -/
def int16le (i : Int) : List Nat :=
  let u := (i % 65536).toNat
  [u % 256, u / 256]

/-- A field value as stored in a variant's ordered field dictionary:
either a string payload or a signed 16-bit integer payload. -/
inductive FieldVal where
  | str (s : String)
  | i16 (n : Int)
deriving DecidableEq, Repr

/-- Canonical byte encoding of one field value, per the primitive codec. -/
def encodeFieldVal : FieldVal → List Nat
  | FieldVal.str s => strEnc s
  | FieldVal.i16 n => int16le n

/-- A field map (the `kwargs` dictionary a variant is constructed from):
an ordered association list from field name to value. -/
abbrev FieldMap := List (String × FieldVal)

/-- First-match association-list lookup (Python dictionary access
`m[k]`, as an `Option`). -/
def lookupMap (m : FieldMap) (k : String) : Option FieldVal :=
  match m with
  | [] => none
  | (k', v) :: rest => if k' = k then some v else lookupMap rest k

/-- The failure modes of `operations.py` that the claims mention.
`keyError f` is Python's `KeyError` on a missing dictionary key (the
spec's `MissingFieldError`, naming the absent field); `invalidField f`
is the spec's `InvalidFieldValueError` on a field value that cannot be
converted to its declared type — integer overflow or an unparsable
integer literal (Python's `int(...)` / `struct.pack` failure inside the
primitive codec); `notImplemented c` is the
`NotImplementedError("Unimplemented Operation %s" % name)` raised by
`Operation.__init__` (the spec's `UnimplementedVariantError`). -/
inductive OpError where
  | keyError (field : String)
  | invalidField (field : String)
  | notImplemented (className : String)
deriving DecidableEq, Repr

/-- The operation id registry of `operations.py` lines 6-30: insertion
order and contents exactly as in the source. -/
def operations : List (String × Nat) :=
  [("vote", 0),
   ("comment", 1),
   ("transfer", 2),
   ("transfer_to_vesting", 3),
   ("withdraw_vesting", 4),
   ("limit_order_create", 5),
   ("limit_order_cancel", 6),
   ("feed_publish", 7),
   ("convert", 8),
   ("account_create", 9),
   ("account_update", 10),
   ("witness_update", 11),
   ("account_witness_vote", 12),
   ("account_witness_proxy", 13),
   ("pow", 14),
   ("custom", 15),
   ("report_over_production", 16),
   ("fill_convert_request", 17),
   ("comment_reward", 18),
   ("curate_reward", 19),
   ("liquidity_reward", 20),
   ("interest", 21),
   ("fill_vesting_withdraw", 22),
   ("fill_order", 23)]

/-- Registry lookup `operations[name]` (Python raises `KeyError` when the
name is absent; here the absence is the `none` case). -/
def idForName (name : String) : Option Nat :=
  match operations.find? (fun p => p.1 = name) with
  | some p => some p.2
  | none => none

/-- `getOperationNameForId` of `operations.py` lines 33-39: scan the
registry in insertion order and return the first name whose id equals the
argument, else the diagnostic placeholder string. The source compares
with `int(...) is int(...)`; all registry ids lie in CPython's cached
small-integer range 0..256, where identity of `int` values coincides with
numeric equality, so the comparison is embedded as equality. -/
def getOperationNameForId (i : Int) : String :=
  match operations.find? (fun p => (p.2 : Int) = i) with
  | some p => p.1
  | none => "Unknown Operation ID " ++ toString i

/-- The two locally implemented variant kinds (`Vote`, `Comment`). -/
inductive VariantKind where
  | vote
  | comment
deriving DecidableEq, Repr

/-- `type(self.op).__name__.lower()` for each implemented variant class. -/
def nameOf : VariantKind → String
  | VariantKind.vote => "vote"
  | VariantKind.comment => "comment"

/-- The declared type of a variant field: `tstr` for fields wrapped in
`String(...)`, `tint16` for fields wrapped in `Int16(...)`. -/
inductive FieldType where
  | tstr
  | tint16
deriving DecidableEq, Repr

/-- The declared `(field, type)` pairs of each variant, in declared (wire)
order, from `Vote.__init__` and `Comment.__init__`. -/
def fieldDecls : VariantKind → List (String × FieldType)
  | VariantKind.vote =>
      [("voter", FieldType.tstr), ("author", FieldType.tstr),
       ("permlink", FieldType.tstr), ("weight", FieldType.tint16)]
  | VariantKind.comment =>
      [("parent_author", FieldType.tstr), ("parent_permlink", FieldType.tstr),
       ("author", FieldType.tstr), ("permlink", FieldType.tstr),
       ("title", FieldType.tstr), ("body", FieldType.tstr),
       ("json_metadata", FieldType.tstr)]

/-- The declared field names of each variant, in declared (wire) order. -/
def fieldsOf (k : VariantKind) : List String :=
  (fieldDecls k).map Prod.fst

/-- Accumulate the value of a decimal digit run; fails on the first
non-digit character. -/
def digitsToNatAux : List Char → Nat → Option Nat
  | [], acc => some acc
  | c :: cs, acc =>
      if c.isDigit then digitsToNatAux cs (acc * 10 + (c.toNat - 48))
      else none

/-- Modelled from the spec: Python's `int(...)` applied to a string — an
optionally signed run of decimal digits; anything else fails. -/
def pyIntOfString (s : String) : Option Int :=
  match s.toList with
  | [] => none
  | '-' :: cs =>
      match cs with
      | [] => none
      | _ => (digitsToNatAux cs 0).map (fun n => -(n : Int))
  | '+' :: cs =>
      match cs with
      | [] => none
      | _ => (digitsToNatAux cs 0).map (fun n => (n : Int))
  | cs => (digitsToNatAux cs 0).map (fun n => (n : Int))

/-- Modelled from the spec: converting/validating one looked-up value
against its declared type (spec section 4.3; the primitive codec's
`String(...)` / `Int16(...)` constructors are external). A string field
stores the supplied value as is (`String.__init__` performs no
conversion and never fails at construction). A signed 16-bit field
applies Python's `int(...)` — an integer is taken as is, a string is
parsed as an integer literal — and rejects overflow past the signed
16-bit range (`struct.pack("<h", ...)`; spec section 7 classes integer
overflow as `InvalidFieldValueError` failing at construction). -/
def convertVal : FieldType → FieldVal → Option FieldVal
  | FieldType.tstr, v => some v
  | FieldType.tint16, FieldVal.i16 n =>
      if -32768 ≤ n ∧ n < 32768 then some (FieldVal.i16 n) else none
  | FieldType.tint16, FieldVal.str s =>
      match pyIntOfString s with
      | some n => if -32768 ≤ n ∧ n < 32768 then some (FieldVal.i16 n) else none
      | none => none

/-- A constructed variant instance: its kind together with its ordered
field dictionary (`GrapheneObject.data`). -/
structure VariantObj where
  kind : VariantKind
  data : List (String × FieldVal)
deriving DecidableEq, Repr

/-- Build the `OrderedDict` of `Vote.__init__` / `Comment.__init__`: for
each declared field in order, look the value up in the supplied map (the
first absent field raises `KeyError` naming it, before any later lookup
and before any encoding), then convert/validate it against the declared
type (an unconvertible value raises the spec's `InvalidFieldValueError`
naming the field), and store the converted value. -/
def buildData (fields : List (String × FieldType)) (m : FieldMap) :
    Except OpError (List (String × FieldVal)) :=
  match fields with
  | [] => Except.ok []
  | (f, t) :: fs =>
      match lookupMap m f with
      | none => Except.error (OpError.keyError f)
      | some v =>
          match convertVal t v with
          | none => Except.error (OpError.invalidField f)
          | some w =>
              match buildData fs m with
              | Except.ok rest => Except.ok ((f, w) :: rest)
              | Except.error e => Except.error e

/-- Construct a variant of the given kind from a field map
(the non-copy branch of `Vote.__init__` / `Comment.__init__`). -/
def variantFromMap (k : VariantKind) (m : FieldMap) :
    Except OpError VariantObj :=
  match buildData (fieldDecls k) m with
  | Except.ok d => Except.ok ⟨k, d⟩
  | Except.error e => Except.error e

/-- `Vote(kwargs)` of `operations.py` lines 70-82 (map branch). -/
def Vote (m : FieldMap) : Except OpError VariantObj :=
  variantFromMap VariantKind.vote m

/-- `Comment(kwargs)` of `operations.py` lines 85-100 (map branch). -/
def Comment (m : FieldMap) : Except OpError VariantObj :=
  variantFromMap VariantKind.comment m

/-- `GrapheneObject.__bytes__`: concatenate each stored field's canonical
encoding in declared order. -/
def objBytes (v : VariantObj) : List Nat :=
  (v.data.map (fun p => encodeFieldVal p.2)).flatten

/-- `name[0].upper() + name[1:]` from `Operation.__init__` line 47. -/
def capitalize (s : String) : String :=
  match s.toList with
  | [] => s
  | c :: cs => String.mk (c.toUpper :: cs)

/-- Modelled from the spec: the `eval(self.name)` class resolution of
`Operation.__init__` line 49. The module scope contains exactly two
variant classes, `Vote` and `Comment`; every other capitalized registry
name resolves to nothing (the external `graphenebase.types` import defines
no class named after a capitalized registry entry), so resolution is a
static table over the implemented variants. -/
def resolveClass (s : String) :
    Option (FieldMap → Except OpError VariantObj) :=
  if s = "Vote" then some (variantFromMap VariantKind.vote)
  else if s = "Comment" then some (variantFromMap VariantKind.comment)
  else none

/-- An `Operation` instance: `{opId, name, op}` as stored by
`Operation.__init__`. -/
structure Operation where
  opId : Nat
  name : String
  op : VariantObj
deriving DecidableEq, Repr

/-- `Operation([name, kwargs])` — the two-element-list branch of
`Operation.__init__` (lines 44-52). The second component of the result is
the text written to standard output during construction (this branch
writes none). -/
def Operation.fromPair (name : String) (m : FieldMap) :
    Except OpError (Operation × String) :=
  match idForName name with
  | none => Except.error (OpError.keyError name)
  | some i =>
      match resolveClass (capitalize name) with
      | none => Except.error (OpError.notImplemented (capitalize name))
      | some ctor =>
          match ctor m with
          | Except.ok v => Except.ok (⟨i, capitalize name, v⟩, "")
          | Except.error e => Except.error e

/-- `Operation(op)` — the existing-variant-value branch of
`Operation.__init__` (lines 53-57). The second component of the result is
the text written to standard output during construction: line 56 executes
`print(self.name)`, emitting the lower-cased class name and a newline. -/
def Operation.fromVariant (v : VariantObj) :
    Except OpError (Operation × String) :=
  let name := nameOf v.kind
  match idForName name with
  | none => Except.error (OpError.keyError name)
  | some i => Except.ok (⟨i, name, v⟩, name ++ "\n")

/-- `Operation.__bytes__` (lines 59-60): `bytes(Id(opId)) + bytes(op)`,
the id as a varint followed by the variant's own encoding. -/
def Operation.bytes (o : Operation) : List Nat :=
  varint o.opId ++ objBytes o.op

/-!
Heap model of object identity. Python variant instances hold a mutable
`self.data` dictionary; the copy branch of `Vote.__init__` /
`Comment.__init__` (`if isArgsThisClass(self, args): self.data =
args[0].data`) binds the new instance's attribute to the very same
dictionary object. To reason about mutation and aliasing we model a heap
of dictionaries addressed by natural numbers, and an instance as a kind
together with the address of its dictionary.
-/

/-- A heap of field dictionaries; the address of a cell is its index. -/
structure Heap where
  cells : List (List (String × FieldVal))
deriving DecidableEq, Repr

/-- Read the dictionary at an address (unallocated addresses read as empty). -/
def Heap.read (h : Heap) (a : Nat) : List (String × FieldVal) :=
  h.cells.getD a []

/-- Overwrite the dictionary at an address. -/
def Heap.write (h : Heap) (a : Nat) (d : List (String × FieldVal)) : Heap :=
  ⟨h.cells.set a d⟩

/-- Append a fresh dictionary cell, returning its address. -/
def Heap.alloc (h : Heap) (d : List (String × FieldVal)) : Heap × Nat :=
  (⟨h.cells ++ [d]⟩, h.cells.length)

/-- A variant instance in the heap model: its kind and the address of its
`self.data` dictionary. -/
structure ObjRef where
  kind : VariantKind
  dataRef : Nat
deriving DecidableEq, Repr

/-- Map-branch construction in the heap model: build the ordered
dictionary and allocate a fresh cell for it. -/
def variantNewRef (k : VariantKind) (h : Heap) (m : FieldMap) :
    Except OpError (Heap × ObjRef) :=
  match buildData (fieldDecls k) m with
  | Except.ok d =>
      match h.alloc d with
      | (h2, a) => Except.ok (h2, ⟨k, a⟩)
  | Except.error e => Except.error e

/-- Copy-branch construction (`self.data = args[0].data`, lines 72-73 and
87-88): the new instance stores a reference to the source's dictionary;
no new cell is allocated and nothing is copied. -/
def copyCtor (h : Heap) (src : ObjRef) : Heap × ObjRef :=
  (h, ⟨src.kind, src.dataRef⟩)

/-- In-place update of one key of an ordered dictionary
(`d[f] = v`: replace the first binding of `f`, else append). -/
def setAssoc : List (String × FieldVal) → String → FieldVal → List (String × FieldVal)
  | [], f, v => [(f, v)]
  | (k, w) :: rest, f, v =>
      if k = f then (f, v) :: rest else (k, w) :: setAssoc rest f v

/-- Mutate one field of an instance: `obj.data[f] = v`. -/
def setFieldRef (h : Heap) (o : ObjRef) (f : String) (v : FieldVal) : Heap :=
  h.write o.dataRef (setAssoc (h.read o.dataRef) f v)

/-- Read one field of an instance: `obj.data[f]`. -/
def getFieldRef (h : Heap) (o : ObjRef) (f : String) : Option FieldVal :=
  lookupMap (h.read o.dataRef) f

/-! Helper lemmas. -/

/-- Updating a key then looking it up yields the new value. -/
theorem lookupMap_setAssoc_self (d : List (String × FieldVal))
    (f : String) (v : FieldVal) :
    lookupMap (setAssoc d f v) f = some v := by
  induction d with
  | nil => simp [setAssoc, lookupMap]
  | cons p rest ih =>
      match p with
      | (k, w) =>
          by_cases hk : k = f
          · simp [setAssoc, hk, lookupMap]
          · simp [setAssoc, hk, lookupMap, ih]

/-- Reading an address just written, inside the allocated range, yields
the written dictionary. -/
theorem Heap.read_write_self (h : Heap) (a : Nat)
    (d : List (String × FieldVal)) (ha : a < h.cells.length) :
    (h.write a d).read a = d := by
  unfold Heap.read Heap.write
  simp [List.getD, List.getElem?_set_self, ha]

/-- Looking up a kept key in a filtered map agrees with the unfiltered
lookup. -/
theorem lookupMap_filter (m : FieldMap) (keep : List String) (f : String)
    (hf : f ∈ keep) :
    lookupMap (m.filter (fun p => decide (p.1 ∈ keep))) f = lookupMap m f := by
  induction m with
  | nil => simp [lookupMap]
  | cons p rest ih =>
      match p with
      | (k, v) =>
          by_cases hk : k = f
          · subst hk
            simp [List.filter, lookupMap, hf, ih]
          · by_cases hkeep : k ∈ keep
            · simp [List.filter, lookupMap, hk, hkeep, ih]
            · simp [List.filter, lookupMap, hk, hkeep, ih]

/-- If every declared field name lies in `keep`, building from the map
filtered to `keep` agrees with building from the full map. -/
theorem buildData_filter (fields : List (String × FieldType))
    (keep : List String) (m : FieldMap) (hsub : ∀ p ∈ fields, p.1 ∈ keep) :
    buildData fields (m.filter (fun p => decide (p.1 ∈ keep)))
      = buildData fields m := by
  induction fields with
  | nil => rfl
  | cons p fs ih =>
      match p with
      | (f, t) =>
          have hf : f ∈ keep := hsub (f, t) (by simp)
          have hrest : ∀ q ∈ fs, q.1 ∈ keep := fun q hq => hsub q (by simp [hq])
          simp [buildData, lookupMap_filter m keep f hf, ih hrest]

/-- If every declared field is present in the map with a value that
converts to its declared type, building succeeds. -/
theorem buildData_ok (fields : List (String × FieldType)) (m : FieldMap)
    (h : ∀ p ∈ fields, ((lookupMap m p.1).bind (convertVal p.2)).isSome) :
    ∃ d, buildData fields m = Except.ok d := by
  induction fields with
  | nil => exact ⟨[], rfl⟩
  | cons p fs ih =>
      match p with
      | (f, t) =>
          have hf : ((lookupMap m f).bind (convertVal t)).isSome :=
            h (f, t) (by simp)
          cases hv : lookupMap m f with
          | none => rw [hv] at hf; cases hf
          | some v =>
              rw [hv] at hf
              cases hw : convertVal t v with
              | none => simp [hw] at hf
              | some w =>
                  obtain ⟨d, hd⟩ := ih (fun q hq => h q (by simp [hq]))
                  exact ⟨(f, w) :: d, by simp [buildData, hv, hw, hd]⟩

/-- If some declared Vote field is absent from the map, `Vote`'s
dictionary construction fails with a `KeyError` naming an absent declared
field: the three string fields are declared before the sole `Int16` field
and never fail conversion, so no `InvalidFieldValueError` can preempt the
first missing key. -/
theorem buildData_vote_missing (m : FieldMap)
    (h : ∃ f ∈ fieldsOf VariantKind.vote, lookupMap m f = none) :
    ∃ f, f ∈ fieldsOf VariantKind.vote ∧ lookupMap m f = none ∧
      buildData (fieldDecls VariantKind.vote) m
        = Except.error (OpError.keyError f) := by
  cases h1 : lookupMap m "voter" with
  | none =>
      exact ⟨"voter", by simp [fieldsOf, fieldDecls], h1,
        by simp [buildData, fieldDecls, h1]⟩
  | some v1 =>
  cases h2 : lookupMap m "author" with
  | none =>
      exact ⟨"author", by simp [fieldsOf, fieldDecls], h2,
        by simp [buildData, fieldDecls, h1, h2, convertVal]⟩
  | some v2 =>
  cases h3 : lookupMap m "permlink" with
  | none =>
      exact ⟨"permlink", by simp [fieldsOf, fieldDecls], h3,
        by simp [buildData, fieldDecls, h1, h2, h3, convertVal]⟩
  | some v3 =>
  cases h4 : lookupMap m "weight" with
  | none =>
      exact ⟨"weight", by simp [fieldsOf, fieldDecls], h4,
        by simp [buildData, fieldDecls, h1, h2, h3, h4, convertVal]⟩
  | some v4 =>
      obtain ⟨f, hf, hnone⟩ := h
      simp [fieldsOf, fieldDecls] at hf
      rcases hf with rfl | rfl | rfl | rfl
      · rw [h1] at hnone; cases hnone
      · rw [h2] at hnone; cases hnone
      · rw [h3] at hnone; cases hnone
      · rw [h4] at hnone; cases hnone

/-- If some declared Comment field is absent from the map, `Comment`'s
dictionary construction fails with a `KeyError` naming an absent declared
field: all seven fields are strings, whose conversion never fails. -/
theorem buildData_comment_missing (m : FieldMap)
    (h : ∃ f ∈ fieldsOf VariantKind.comment, lookupMap m f = none) :
    ∃ f, f ∈ fieldsOf VariantKind.comment ∧ lookupMap m f = none ∧
      buildData (fieldDecls VariantKind.comment) m
        = Except.error (OpError.keyError f) := by
  cases h1 : lookupMap m "parent_author" with
  | none =>
      exact ⟨"parent_author", by simp [fieldsOf, fieldDecls], h1,
        by simp [buildData, fieldDecls, h1]⟩
  | some v1 =>
  cases h2 : lookupMap m "parent_permlink" with
  | none =>
      exact ⟨"parent_permlink", by simp [fieldsOf, fieldDecls], h2,
        by simp [buildData, fieldDecls, h1, h2, convertVal]⟩
  | some v2 =>
  cases h3 : lookupMap m "author" with
  | none =>
      exact ⟨"author", by simp [fieldsOf, fieldDecls], h3,
        by simp [buildData, fieldDecls, h1, h2, h3, convertVal]⟩
  | some v3 =>
  cases h4 : lookupMap m "permlink" with
  | none =>
      exact ⟨"permlink", by simp [fieldsOf, fieldDecls], h4,
        by simp [buildData, fieldDecls, h1, h2, h3, h4, convertVal]⟩
  | some v4 =>
  cases h5 : lookupMap m "title" with
  | none =>
      exact ⟨"title", by simp [fieldsOf, fieldDecls], h5,
        by simp [buildData, fieldDecls, h1, h2, h3, h4, h5, convertVal]⟩
  | some v5 =>
  cases h6 : lookupMap m "body" with
  | none =>
      exact ⟨"body", by simp [fieldsOf, fieldDecls], h6,
        by simp [buildData, fieldDecls, h1, h2, h3, h4, h5, h6, convertVal]⟩
  | some v6 =>
  cases h7 : lookupMap m "json_metadata" with
  | none =>
      exact ⟨"json_metadata", by simp [fieldsOf, fieldDecls], h7,
        by simp [buildData, fieldDecls, h1, h2, h3, h4, h5, h6, h7, convertVal]⟩
  | some v7 =>
      obtain ⟨f, hf, hnone⟩ := h
      simp [fieldsOf, fieldDecls] at hf
      rcases hf with rfl | rfl | rfl | rfl | rfl | rfl | rfl
      · rw [h1] at hnone; cases hnone
      · rw [h2] at hnone; cases hnone
      · rw [h3] at hnone; cases hnone
      · rw [h4] at hnone; cases hnone
      · rw [h5] at hnone; cases hnone
      · rw [h6] at hnone; cases hnone
      · rw [h7] at hnone; cases hnone

/-- A successfully constructed variant carries the kind it was built as. -/
theorem variantFromMap_kind (k : VariantKind) (m : FieldMap) (v : VariantObj)
    (h : variantFromMap k m = Except.ok v) : v.kind = k := by
  unfold variantFromMap at h
  cases hb : buildData (fieldDecls k) m with
  | ok d => rw [hb] at h; cases h; rfl
  | error e => rw [hb] at h; cases h

/-- `Operation.fromPair "vote"` reduced to its variant construction. -/
theorem fromPair_vote_eq (m : FieldMap) :
    Operation.fromPair "vote" m
      = (match variantFromMap VariantKind.vote m with
         | Except.ok w => Except.ok (⟨0, "Vote", w⟩, "")
         | Except.error e => Except.error e) := rfl

/-- `Operation.fromPair "comment"` reduced to its variant construction. -/
theorem fromPair_comment_eq (m : FieldMap) :
    Operation.fromPair "comment" m
      = (match variantFromMap VariantKind.comment m with
         | Except.ok w => Except.ok (⟨1, "Comment", w⟩, "")
         | Except.error e => Except.error e) := rfl

/-! Concrete inputs used by the claims. -/

/-- The Vote field map of the spec's first concrete scenario. -/
def aliceMap : FieldMap :=
  [("voter", FieldVal.str "alice"), ("author", FieldVal.str "bob"),
   ("permlink", FieldVal.str "post1"), ("weight", FieldVal.i16 100)]

/-- The Comment field map of the spec's second concrete scenario
(`json_metadata` is the two-character string of an opening and a closing
curly brace). -/
def carolMap : FieldMap :=
  [("parent_author", FieldVal.str ""), ("parent_permlink", FieldVal.str ""),
   ("author", FieldVal.str "carol"), ("permlink", FieldVal.str "p2"),
   ("title", FieldVal.str "Hi"), ("body", FieldVal.str "Body"),
   ("json_metadata", FieldVal.str "\x7b\x7d")]

/-- The variant instance `Vote(aliceMap)` evaluates to. -/
def voteObjEx : VariantObj :=
  ⟨VariantKind.vote,
   [("voter", FieldVal.str "alice"), ("author", FieldVal.str "bob"),
    ("permlink", FieldVal.str "post1"), ("weight", FieldVal.i16 100)]⟩

/-! Claim theorems. -/

/-- C1: encoding the Vote with voter "alice", author "bob", permlink
"post1", weight 100, wrapped as an Operation, yields exactly the id
varint 0, then each declared field in order (strings length-prefixed,
the weight little-endian signed 16-bit) — concretely the nineteen bytes
listed on the right of the second conjunct. -/
theorem vote_operation_encoding :
    (Operation.fromPair "vote" aliceMap).map (fun p => p.1.bytes)
      = Except.ok (varint 0 ++ strEnc "alice" ++ strEnc "bob"
          ++ strEnc "post1" ++ int16le 100)
    ∧ varint 0 ++ strEnc "alice" ++ strEnc "bob" ++ strEnc "post1" ++ int16le 100
      = [0, 5, 97, 108, 105, 99, 101, 3, 98, 111, 98,
         5, 112, 111, 115, 116, 49, 100, 0] :=
  ⟨rfl, rfl⟩

/-- C2: the registry holds exactly the 24 pairs vote=0 .. fill_order=23 in
the spec's order, names and ids are each pairwise distinct (a bijection
over registered names), and for every registered name the id round-trips:
`getOperationNameForId (idForName n) = n`. -/
theorem registry_bijection_roundtrip :
    operations =
      [("vote", 0), ("comment", 1), ("transfer", 2),
       ("transfer_to_vesting", 3), ("withdraw_vesting", 4),
       ("limit_order_create", 5), ("limit_order_cancel", 6),
       ("feed_publish", 7), ("convert", 8), ("account_create", 9),
       ("account_update", 10), ("witness_update", 11),
       ("account_witness_vote", 12), ("account_witness_proxy", 13),
       ("pow", 14), ("custom", 15), ("report_over_production", 16),
       ("fill_convert_request", 17), ("comment_reward", 18),
       ("curate_reward", 19), ("liquidity_reward", 20), ("interest", 21),
       ("fill_vesting_withdraw", 22), ("fill_order", 23)]
    ∧ (operations.map Prod.fst).Nodup
    ∧ (operations.map Prod.snd).Nodup
    ∧ operations.length = 24
    ∧ (operations.all (fun p =>
         (idForName p.1 == some p.2)
           && (getOperationNameForId (p.2 : Int) == p.1))) = true :=
  ⟨rfl, by decide, by decide, rfl, by decide⟩

/-- C4: for every integer id absent from the registry,
`getOperationNameForId` does not fail and returns the diagnostic
placeholder embedding the raw id. -/
theorem unknown_id_placeholder (k : Int)
    (h : ∀ p ∈ operations, (p.2 : Int) ≠ k) :
    getOperationNameForId k = "Unknown Operation ID " ++ toString k := by
  unfold getOperationNameForId
  have hnone : operations.find? (fun p => (p.2 : Int) = k) = none := by
    rw [List.find?_eq_none]
    intro p hp
    simpa using h p hp
  rw [hnone]

/-- Witness for C4 at the concrete unregistered id 99. -/
theorem unknown_id_placeholder_witness :
    (∀ p ∈ operations, (p.2 : Int) ≠ (99 : Int))
    ∧ getOperationNameForId 99 = "Unknown Operation ID " ++ toString (99 : Int) :=
  ⟨by decide, unknown_id_placeholder 99 (by decide)⟩

/-- C9: encoding the Comment of the spec's scenario, wrapped as an
Operation, yields varint 1 followed by exactly the seven length-prefixed
strings in declared field order — concretely the bytes on the right of
the second conjunct (byte 123 is the opening and 125 the closing curly
brace of the json_metadata payload). -/
theorem comment_operation_encoding :
    (Operation.fromPair "comment" carolMap).map (fun p => p.1.bytes)
      = Except.ok (varint 1 ++ strEnc "" ++ strEnc ""
          ++ strEnc "carol" ++ strEnc "p2" ++ strEnc "Hi"
          ++ strEnc "Body" ++ strEnc "\x7b\x7d")
    ∧ varint 1 ++ strEnc "" ++ strEnc "" ++ strEnc "carol" ++ strEnc "p2"
        ++ strEnc "Hi" ++ strEnc "Body" ++ strEnc "\x7b\x7d"
      = [1, 0, 0, 5, 99, 97, 114, 111, 108, 2, 112, 50,
         2, 72, 105, 4, 66, 111, 100, 121, 2, 123, 125] :=
  ⟨rfl, rfl⟩

/-- C8 (refuting evaluation): constructing an Operation from an existing
Vote value executes `print(self.name)` (operations.py line 56), writing
the lower-cased class name and a newline to standard output — the output
trace of this construction path is "vote\n", not empty. -/
theorem fromVariant_writes_stdout :
    (Operation.fromVariant voteObjEx).map (fun p => p.2)
      = Except.ok "vote\n"
    ∧ "vote\n" ≠ "" :=
  ⟨rfl, by decide⟩

/-- C3: for every implemented variant kind and every field map the variant
accepts, the Operation built from the (name, map) pair and the Operation
built from the already-constructed variant value encode to byte-identical
output. -/
theorem fromPair_fromVariant_encode_agree (k : VariantKind) (m : FieldMap)
    (v : VariantObj) (h : variantFromMap k m = Except.ok v) :
    ∃ (o1 o2 : Operation) (s1 s2 : String),
      Operation.fromPair (nameOf k) m = Except.ok (o1, s1)
      ∧ Operation.fromVariant v = Except.ok (o2, s2)
      ∧ o1.bytes = o2.bytes := by
  have hk : v.kind = k := variantFromMap_kind k m v h
  cases k with
  | vote =>
      refine ⟨⟨0, "Vote", v⟩, ⟨0, "vote", v⟩, "", "vote\n", ?_, ?_, rfl⟩
      · rw [show nameOf VariantKind.vote = "vote" from rfl,
          fromPair_vote_eq, h]
      · unfold Operation.fromVariant
        rw [hk]
        rfl
  | comment =>
      refine ⟨⟨1, "Comment", v⟩, ⟨1, "comment", v⟩, "", "comment\n", ?_, ?_, rfl⟩
      · rw [show nameOf VariantKind.comment = "comment" from rfl,
          fromPair_comment_eq, h]
      · unfold Operation.fromVariant
        rw [hk]
        rfl

/-- Witness for C3 at the spec's concrete Vote scenario. -/
theorem fromPair_fromVariant_encode_agree_witness :
    variantFromMap VariantKind.vote aliceMap = Except.ok voteObjEx
    ∧ ∃ (o1 o2 : Operation) (s1 s2 : String),
        Operation.fromPair (nameOf VariantKind.vote) aliceMap = Except.ok (o1, s1)
        ∧ Operation.fromVariant voteObjEx = Except.ok (o2, s2)
        ∧ o1.bytes = o2.bytes :=
  ⟨rfl, fromPair_fromVariant_encode_agree VariantKind.vote aliceMap voteObjEx rfl⟩

/-- C6: a field map missing at least one declared field of the variant
makes construction fail with a `KeyError` naming an absent declared
field, and the Operation wrapper fails identically — no Operation value
exists, so no bytes are ever produced. -/
theorem missing_field_fails (k : VariantKind) (m : FieldMap)
    (h : ∃ f ∈ fieldsOf k, lookupMap m f = none) :
    ∃ f, f ∈ fieldsOf k ∧ lookupMap m f = none
      ∧ variantFromMap k m = Except.error (OpError.keyError f)
      ∧ Operation.fromPair (nameOf k) m = Except.error (OpError.keyError f) := by
  obtain ⟨f, hf, hnone, hbuild⟩ :
      ∃ f, f ∈ fieldsOf k ∧ lookupMap m f = none ∧
        buildData (fieldDecls k) m = Except.error (OpError.keyError f) := by
    cases k with
    | vote => exact buildData_vote_missing m h
    | comment => exact buildData_comment_missing m h
  have hvm : variantFromMap k m = Except.error (OpError.keyError f) := by
    simp [variantFromMap, hbuild]
  refine ⟨f, hf, hnone, hvm, ?_⟩
  cases k with
  | vote =>
      rw [show nameOf VariantKind.vote = "vote" from rfl,
        fromPair_vote_eq, hvm]
  | comment =>
      rw [show nameOf VariantKind.comment = "comment" from rfl,
        fromPair_comment_eq, hvm]

/-- Witness for C6: a Vote map carrying only "voter". -/
theorem missing_field_fails_witness :
    (∃ f ∈ fieldsOf VariantKind.vote,
        lookupMap [("voter", FieldVal.str "a")] f = none)
    ∧ ∃ f, f ∈ fieldsOf VariantKind.vote
        ∧ lookupMap [("voter", FieldVal.str "a")] f = none
        ∧ variantFromMap VariantKind.vote [("voter", FieldVal.str "a")]
            = Except.error (OpError.keyError f)
        ∧ Operation.fromPair (nameOf VariantKind.vote)
            [("voter", FieldVal.str "a")]
            = Except.error (OpError.keyError f) :=
  ⟨by decide, missing_field_fails VariantKind.vote
      [("voter", FieldVal.str "a")] (by decide)⟩

/-- C7: every registered name other than "vote" and "comment" has no
locally implemented variant class, so constructing an Operation from it
fails with the unimplemented-variant error, whatever the field map. -/
theorem unimplemented_variant_fails (name : String) (id : Nat) (m : FieldMap)
    (hmem : (name, id) ∈ operations)
    (h1 : name ≠ "vote") (h2 : name ≠ "comment") :
    Operation.fromPair name m
      = Except.error (OpError.notImplemented (capitalize name)) := by
  have hall : ∀ p ∈ operations,
      p.1 = "vote" ∨ p.1 = "comment"
        ∨ (capitalize p.1 ≠ "Vote" ∧ capitalize p.1 ≠ "Comment") := by decide
  have hcap := hall (name, id) hmem
  simp only at hcap
  rcases hcap with hv | hc | ⟨hnv, hnc⟩
  · exact absurd hv h1
  · exact absurd hc h2
  · have hsome : ∃ q, operations.find? (fun p => p.1 = name) = some q := by
      rw [← Option.isSome_iff_exists, List.find?_isSome]
      exact ⟨(name, id), hmem, by simp⟩
    obtain ⟨q, hq⟩ := hsome
    have hres : resolveClass (capitalize name) = none := by
      unfold resolveClass
      rw [if_neg hnv, if_neg hnc]
    unfold Operation.fromPair idForName
    rw [hq, hres]

/-- Witness for C7 at the registered, unimplemented name "transfer". -/
theorem unimplemented_variant_fails_witness :
    ("transfer", 2) ∈ operations
    ∧ "transfer" ≠ "vote"
    ∧ "transfer" ≠ "comment"
    ∧ Operation.fromPair "transfer" []
        = Except.error (OpError.notImplemented (capitalize "transfer")) :=
  ⟨by decide, by decide, by decide,
   unimplemented_variant_fails "transfer" 2 [] (by decide) (by decide) (by decide)⟩

/-- A one-cell heap holding the dictionary of the concrete Vote. -/
def heap0 : Heap :=
  ⟨[[("voter", FieldVal.str "alice"), ("author", FieldVal.str "bob"),
     ("permlink", FieldVal.str "post1"), ("weight", FieldVal.i16 100)]]⟩

/-- The Vote instance whose dictionary lives at address 0 of `heap0`. -/
def srcRef : ObjRef := ⟨VariantKind.vote, 0⟩

/-- C5 (counterexample): copy-constructing the concrete Vote and mutating
the copy's "weight" to 50 changes the source's "weight" from 100 to 50 —
the copy stores the very same dictionary reference as the source, so the
claimed independence fails at this explicit input. -/
theorem copy_mutation_changes_source :
    (copyCtor heap0 srcRef).2.dataRef = srcRef.dataRef
    ∧ getFieldRef heap0 srcRef "weight" = some (FieldVal.i16 100)
    ∧ getFieldRef
        (setFieldRef (copyCtor heap0 srcRef).1 (copyCtor heap0 srcRef).2
          "weight" (FieldVal.i16 50))
        srcRef "weight"
      = some (FieldVal.i16 50) :=
  ⟨rfl, rfl, rfl⟩

/-- C5 (amended): copy-construction (`self.data = args[0].data`) aliases
the source's field dictionary — the copy holds the same data reference,
and writing any field through the copy is observed when reading the same
field through the source. -/
theorem copy_ctor_aliases_source (h : Heap) (src : ObjRef) (f : String)
    (v : FieldVal) (ha : src.dataRef < h.cells.length) :
    (copyCtor h src).2.dataRef = src.dataRef
    ∧ getFieldRef
        (setFieldRef (copyCtor h src).1 (copyCtor h src).2 f v) src f
      = some v := by
  refine ⟨rfl, ?_⟩
  show lookupMap
      ((h.write src.dataRef (setAssoc (h.read src.dataRef) f v)).read src.dataRef) f
    = some v
  rw [Heap.read_write_self h src.dataRef _ ha]
  exact lookupMap_setAssoc_self _ f v

/-- Witness for the amended C5 at the concrete one-cell heap. -/
theorem copy_ctor_aliases_source_witness :
    srcRef.dataRef < heap0.cells.length
    ∧ (copyCtor heap0 srcRef).2.dataRef = srcRef.dataRef
    ∧ getFieldRef
        (setFieldRef (copyCtor heap0 srcRef).1 (copyCtor heap0 srcRef).2
          "weight" (FieldVal.i16 50))
        srcRef "weight"
      = some (FieldVal.i16 50) :=
  ⟨by decide,
   copy_ctor_aliases_source heap0 srcRef "weight" (FieldVal.i16 50) (by decide)⟩

/-- A Vote map binding every required field, with the weight past the
signed 16-bit range. -/
def overflowMap : FieldMap :=
  [("voter", FieldVal.str "alice"), ("author", FieldVal.str "bob"),
   ("permlink", FieldVal.str "post1"), ("weight", FieldVal.i16 70000)]

/-- A Vote map binding every required field, with the weight bound to a
string that is no integer literal. -/
def badStrMap : FieldMap :=
  [("voter", FieldVal.str "alice"), ("author", FieldVal.str "bob"),
   ("permlink", FieldVal.str "post1"), ("weight", FieldVal.str "xyz")]

/-- C10 (counterexample): a field map may contain every required field of
the variant and still fail construction — with weight = 70000 the signed
16-bit range check fails (`struct.pack("<h", ...)`; spec section 7
integer overflow), and with weight = "xyz" Python's `int(...)` fails —
so construction does not succeed for every map containing all required
fields. -/
theorem extra_keys_claim_fails :
    (∀ f ∈ fieldsOf VariantKind.vote, (lookupMap overflowMap f).isSome)
    ∧ variantFromMap VariantKind.vote overflowMap
        = Except.error (OpError.invalidField "weight")
    ∧ (∀ f ∈ fieldsOf VariantKind.vote, (lookupMap badStrMap f).isSome)
    ∧ variantFromMap VariantKind.vote badStrMap
        = Except.error (OpError.invalidField "weight") :=
  ⟨by decide, rfl, by decide, rfl⟩

/-- C10 (amended): a field map binding every declared field of the
variant to a value that converts to the field's declared type, plus
arbitrary extra keys, constructs successfully and yields the very same
variant value — hence byte-identical encodings — as the map restricted to
the declared fields. -/
theorem extra_keys_ignored (k : VariantKind) (m : FieldMap)
    (h : ∀ p ∈ fieldDecls k, ((lookupMap m p.1).bind (convertVal p.2)).isSome) :
    ∃ v, variantFromMap k m = Except.ok v
      ∧ variantFromMap k (m.filter (fun p => decide (p.1 ∈ fieldsOf k)))
          = Except.ok v
      ∧ (Operation.fromPair (nameOf k) m).map (fun p => p.1.bytes)
          = (Operation.fromPair (nameOf k)
              (m.filter (fun p => decide (p.1 ∈ fieldsOf k)))).map
              (fun p => p.1.bytes) := by
  obtain ⟨d, hd⟩ := buildData_ok (fieldDecls k) m h
  have hfull : variantFromMap k m = Except.ok ⟨k, d⟩ := by
    simp [variantFromMap, hd]
  have hfilt : variantFromMap k
      (m.filter (fun p => decide (p.1 ∈ fieldsOf k))) = Except.ok ⟨k, d⟩ := by
    have heq := buildData_filter (fieldDecls k) (fieldsOf k) m
      (fun p hp => List.mem_map_of_mem Prod.fst hp)
    simp [variantFromMap, heq, hd]
  refine ⟨⟨k, d⟩, hfull, hfilt, ?_⟩
  cases k with
  | vote =>
      rw [show nameOf VariantKind.vote = "vote" from rfl,
        fromPair_vote_eq, fromPair_vote_eq, hfull, hfilt]
  | comment =>
      rw [show nameOf VariantKind.comment = "comment" from rfl,
        fromPair_comment_eq, fromPair_comment_eq, hfull, hfilt]

/-- Witness for the amended C10: the concrete Vote map extended with an
extra key, every declared field present and convertible. -/
theorem extra_keys_ignored_witness :
    (∀ p ∈ fieldDecls VariantKind.vote,
        ((lookupMap (aliceMap ++ [("extra", FieldVal.str "x")]) p.1).bind
          (convertVal p.2)).isSome)
    ∧ ∃ v, variantFromMap VariantKind.vote
          (aliceMap ++ [("extra", FieldVal.str "x")]) = Except.ok v
        ∧ variantFromMap VariantKind.vote
            ((aliceMap ++ [("extra", FieldVal.str "x")]).filter
              (fun p => decide (p.1 ∈ fieldsOf VariantKind.vote)))
            = Except.ok v
        ∧ (Operation.fromPair (nameOf VariantKind.vote)
              (aliceMap ++ [("extra", FieldVal.str "x")])).map
              (fun p => p.1.bytes)
            = (Operation.fromPair (nameOf VariantKind.vote)
                ((aliceMap ++ [("extra", FieldVal.str "x")]).filter
                  (fun p => decide (p.1 ∈ fieldsOf VariantKind.vote)))).map
                (fun p => p.1.bytes) :=
  ⟨by decide,
   extra_keys_ignored VariantKind.vote
     (aliceMap ++ [("extra", FieldVal.str "x")]) (by decide)⟩

end SteemOps
